import Mathlib

/-!
Shallow embedding of the kipp file-sharing server (handler source file).

The server accepts multipart uploads (`UploadHandler`), streams the file part
to a blob store while hashing it with BLAKE3, commits an `Entry` record to a
metadata database, and later serves stored entries back (`ServeHTTP`, the
`fileSystemFunc` closure), enforcing expiry, cache headers and a content-type
sniffing step (`detectContentType`).

Modelling conventions:
  * byte values are `Nat` (always < 256 where it matters, stated explicitly);
  * instants and durations are `Int` nanoseconds, as in Go `time.Time` /
    `time.Duration`;
  * the BLAKE3 hash, the `mimetype` library classifier and Go's
    `mime.TypeByExtension` table are external libraries, taken as abstract
    function parameters;
  * the multipart body is modelled by its parts, each with the framing bytes
    (`headerLen`, covering boundary lines and part headers) that the reader
    must consume from the wire before the part content, plus a trailing
    `boundaryLen` needed to detect the end of a part's content.
    `http.MaxBytesReader` is modelled as a byte budget: an operation that
    needs to consume more than `limit` bytes from the body fails;
  * blob streams are `Stream`: a byte list, a read position, and whether
    `Seek(0, io.SeekStart)` succeeds.
-/

namespace Kipp

/-- The alphabet of Go `base64.RawURLEncoding` (RFC 4648 URL-safe, no padding). -/
def base64Chars : List Char :=
  ['A', 'B', 'C', 'D', 'E', 'F', 'G', 'H', 'I', 'J', 'K', 'L', 'M',
   'N', 'O', 'P', 'Q', 'R', 'S', 'T', 'U', 'V', 'W', 'X', 'Y', 'Z',
   'a', 'b', 'c', 'd', 'e', 'f', 'g', 'h', 'i', 'j', 'k', 'l', 'm',
   'n', 'o', 'p', 'q', 'r', 's', 't', 'u', 'v', 'w', 'x', 'y', 'z',
   '0', '1', '2', '3', '4', '5', '6', '7', '8', '9', '-', '_']

def b64Char (n : Nat) : Char := base64Chars.getD n 'A'

/-- Character stream of `base64.RawURLEncoding.EncodeToString`: 6-bit groups,
final quantum unpadded (2 chars for 1 trailing byte, 3 chars for 2). -/
def encodeChars : List Nat → List Char
  | b0 :: b1 :: b2 :: rest =>
      b64Char (b0 / 4) :: b64Char (b0 % 4 * 16 + b1 / 16) ::
      b64Char (b1 % 16 * 4 + b2 / 64) :: b64Char (b2 % 64) :: encodeChars rest
  | [b0, b1] =>
      [b64Char (b0 / 4), b64Char (b0 % 4 * 16 + b1 / 16), b64Char (b1 % 16 * 4)]
  | [b0] => [b64Char (b0 / 4), b64Char (b0 % 4 * 16)]
  | [] => []

/-- Go `base64.RawURLEncoding.EncodeToString`. -/
def rawURLEncode (bs : List Nat) : String := String.mk (encodeChars bs)

/-- Go `filepath.Ext` scan: walk the path backwards; a dot yields the suffix
from that dot, a path separator (or exhausting the path) yields "". -/
def filepathExtGo : List Char → List Char → String
  | [], _ => ""
  | c :: cs, acc =>
      if c = '/' then "" else
      if c = '.' then String.mk ('.' :: acc) else filepathExtGo cs (c :: acc)

/-- Go `filepath.Ext`. -/
def filepathExt (p : String) : String := filepathExtGo p.data.reverse []

/-- `database.Entry` (Size is int64; Timestamp and Lifetime are instants in
nanoseconds; Lifetime `none` = `nil`, never expires). -/
structure Entry where
  slug : String
  name : String
  sum : String
  size : Int
  timestamp : Int
  lifetime : Option Int
deriving DecidableEq

/-- One multipart part: its form name, file name, the framing bytes consumed
from the wire to open it (preceding boundary line + part headers), and its
content bytes. -/
structure Part where
  formName : String
  fileName : String
  headerLen : Nat
  content : List Nat
deriving DecidableEq

/-- An upload request: declared Content-Length (-1 when absent), the multipart
parts, the bytes needed past a part's content to see its closing boundary, and
whether reading the body fails mid-stream with an I/O error. -/
structure UploadReq where
  contentLength : Int
  parts : List Part
  boundaryLen : Nat
  readErr : Bool

/-- The `mr.NextPart()` loop of `UploadHandler`: scan parts until `FormName()`
is `"file"`, returning that part with the bytes consumed from the body to open
it; parts skipped over are consumed entirely (framing plus content). -/
def findFilePart : List Part → Nat → Option (Part × Nat)
  | [], _ => none
  | p :: ps, acc =>
      if p.formName = "file" then some (p, acc + p.headerLen)
      else findFilePart ps (acc + p.headerLen + p.content.length)

/-- What `UploadHandler` writes back: HTTP status, the `Location` header of the
redirect (if any), the response body, and the Entry committed to the database
(if any). -/
structure UploadOutcome where
  status : Nat
  location : Option String
  body : String
  entry : Option Entry
deriving DecidableEq

/-- `Server.UploadHandler`. Checks declared length against the limit (413),
scans for the `"file"` part under the `MaxBytesReader` budget (failures 400),
rejects names over 255 bytes (400), draws `rnd` (the 9 random slug bytes),
then streams the part into the blob store while hashing; a read error or an
exhausted byte budget fails the copy (500, no entry). On a successful copy it
reads the clock once (`now`), commits the Entry, and on success redirects
(303) to "/" ++ slug ++ ext, also writing that path plus a newline as body. -/
def uploadHandler (hash : List Nat → List Nat) (limit lifetimeCfg : Int)
    (dbOk : Bool) (req : UploadReq) (rnd : List Nat) (now : Int) :
    UploadOutcome :=
  if req.contentLength > limit then ⟨413, none, "", none⟩
  else
    match findFilePart req.parts 0 with
    | none => ⟨400, none, "", none⟩
    | some (p, consumed) =>
      if (consumed : Int) > limit then ⟨400, none, "", none⟩
      else if p.fileName.utf8ByteSize > 255 then ⟨400, none, "", none⟩
      else
        let slug := rawURLEncode rnd
        if req.readErr ∨ ((consumed + p.content.length + req.boundaryLen : Nat) : Int) > limit then
          ⟨500, none, "", none⟩
        else
          let l : Option Int := if lifetimeCfg > 0 then some (now + lifetimeCfg) else none
          let e : Entry :=
            ⟨slug, p.fileName, rawURLEncode (hash p.content),
             (p.content.length : Int), now, l⟩
          if dbOk then
            let pth := "/" ++ slug ++ filepathExt p.fileName
            ⟨303, some pth, pth ++ "\n", some e⟩
          else ⟨500, none, "", none⟩

/-- A seekable blob stream (`fs.File`): content bytes, current read position,
and whether `Seek(0, io.SeekStart)` succeeds on it. -/
structure Stream where
  data : List Nat
  pos : Nat
  seekOk : Bool
deriving DecidableEq

/-- `io.ReadFull(r, b[:n])` on a `Stream`: the bytes obtained and the advanced
stream (the short-read error is discarded by the caller, as in the source). -/
def readFull (s : Stream) (n : Nat) : List Nat × Stream :=
  ((s.data.drop s.pos).take n, ⟨s.data, min s.data.length (s.pos + n), s.seekOk⟩)

/-- The only error `detectContentType` can return: the
`errors.New("seeker can not seek")` case when `Seek` fails. -/
inductive DetectErr where
  | seekFailure
deriving DecidableEq

/-- `detectContentType`: read up to 3072 bytes, seek back to the start (error
if that fails), classify with `mimetype.Detect` (the abstract `dStr` for
`m.String()` and `dOct` for `m.Is("application/octet-stream")`), and when the
signature is the generic octet-stream type prefer `mime.TypeByExtension`
(abstract `extT`, returning "" for an unknown extension) of the filename's
extension when non-empty. -/
def detectContentType (dStr : List Nat → String) (dOct : List Nat → Bool)
    (extT : String → String) (name : String) (s : Stream) :
    Except DetectErr (String × Stream) :=
  let r := readFull s 3072
  let b := r.1
  if r.2.seekOk then
    let s2 : Stream := ⟨r.2.data, 0, r.2.seekOk⟩
    if dOct b then
      let ctype := extT (filepathExt name)
      if ctype ≠ "" then .ok (ctype, s2) else .ok (dStr b, s2)
    else .ok (dStr b, s2)
  else .error .seekFailure

/-- The HTML-downgrade rewrite in `ServeHTTP`: a detected type starting with
the 9 bytes "text/html" is served as "text/plain" followed by the rest of the
detected type (so "text/html; charset=utf-8" keeps its charset parameter). -/
def rewriteCType (ctype : String) : String :=
  if "text/html".data.isPrefixOf ctype.data then
    String.mk ("text/plain".data ++ ctype.data.drop "text/html".length)
  else ctype

/-- Go `path.Split`: split after the final slash into (dir, file); with no
slash the dir is empty. -/
def pathSplit (p : String) : String × String :=
  match p.data.reverse.findIdx? (· = '/') with
  | none => ("", p)
  | some j =>
      (String.mk (p.data.take (p.data.length - j)),
       String.mk (p.data.drop (p.data.length - j)))

/-- The slug recovery in `ServeHTTP`: trim everything from the first "."
onward (`strings.Index(name, ".")`). -/
def trimAtDot (s : String) : String := String.mk (s.data.takeWhile (· ≠ '.'))

/-- Outcome of the `fileSystemFunc` closure for a stored entry:
`os.ErrNotExist` (a 404, indistinguishable for absent and expired slugs), any
other error (a 500), or a served file with its `Cache-Control`,
`Content-Type`, `Etag` and optional `Expires` headers and the open stream. -/
inductive ServeResult where
  | notFound
  | srvError
  | served (cache ctype etag : String) (expires : Option Int) (strm : Stream)
deriving DecidableEq

/-- The part of the `fileSystemFunc` closure past the entry lookup: open the
blob, sniff the content type, downgrade HTML, and attach headers. `cache` was
computed from the (already expiry-checked) lifetime. -/
def serveEntry (dStr : List Nat → String) (dOct : List Nat → Bool)
    (extT : String → String) (fsOpen : String → Option Stream)
    (e : Entry) (cache : String) : ServeResult :=
  match fsOpen e.slug with
  | none => .srvError
  | some f =>
    match detectContentType dStr dOct extT e.name f with
    | .error _ => .srvError
    | .ok (ctype, f2) =>
        .served cache (rewriteCType ctype) ("\"" ++ e.sum ++ "\"")
          e.lifetime f2

/-- The `fileSystemFunc` closure of `ServeHTTP` for entry paths (the static
asset root is assumed to miss; database lookup errors other than
`ErrNoResults` are not modelled): split the path, reject nested paths, trim
the cosmetic extension, look up the slug, apply the logical-expiry check
(`e.Lifetime.Before(now)`), compute `Cache-Control` (31536000 seconds ≈ one
year without a lifetime; otherwise must-revalidate with the remaining whole
seconds, `int(e.Lifetime.Sub(now).Seconds())` with nanosecond instants), and
serve the blob. -/
def serveSlug (dStr : List Nat → String) (dOct : List Nat → Bool)
    (extT : String → String) (db : String → Option Entry)
    (fsOpen : String → Option Stream) (reqPath : String) (now : Int) :
    ServeResult :=
  let sp := pathSplit reqPath
  if sp.1 ≠ "/" then .notFound
  else
    let nm := trimAtDot sp.2
    match db nm with
    | none => .notFound
    | some e =>
      match e.lifetime with
      | some l =>
          if l < now then .notFound
          else
            serveEntry dStr dOct extT fsOpen e
              ("public, must-revalidate, max-age=" ++ toString ((l - now) / 1000000000))
      | none => serveEntry dStr dOct extT fsOpen e "max-age=31536000"

/-! ## Helper lemmas -/

theorem b64Char_mem (n : Nat) (h : n < 64) : b64Char n ∈ base64Chars := by
  unfold b64Char
  have hl : base64Chars.length = 64 := rfl
  rw [List.getD_eq_getElem base64Chars 'A' (by omega)]
  exact List.getElem_mem _

theorem encodeChars_length : ∀ bs : List Nat,
    (encodeChars bs).length = (4 * bs.length + 2) / 3
  | [] => rfl
  | [_] => by simp [encodeChars]
  | [_, _] => by simp [encodeChars]
  | b0 :: b1 :: b2 :: rest => by
      have ih := encodeChars_length rest
      simp only [encodeChars, List.length_cons, ih]
      omega

theorem encodeChars_mem : ∀ bs : List Nat, (∀ b ∈ bs, b < 256) →
    ∀ ch ∈ encodeChars bs, ch ∈ base64Chars
  | [], _ => by simp [encodeChars]
  | [b0], hb => by
      have h0 : b0 < 256 := hb _ (by simp)
      intro ch hch
      simp only [encodeChars, List.mem_cons, List.not_mem_nil, or_false] at hch
      rcases hch with h | h <;> subst h <;> exact b64Char_mem _ (by omega)
  | [b0, b1], hb => by
      have h0 : b0 < 256 := hb _ (by simp)
      have h1 : b1 < 256 := hb _ (by simp)
      intro ch hch
      simp only [encodeChars, List.mem_cons, List.not_mem_nil, or_false] at hch
      rcases hch with h | h | h <;> subst h <;> exact b64Char_mem _ (by omega)
  | b0 :: b1 :: b2 :: rest, hb => by
      have h0 : b0 < 256 := hb _ (by simp)
      have h1 : b1 < 256 := hb _ (by simp)
      have h2 : b2 < 256 := hb _ (by simp)
      intro ch hch
      simp only [encodeChars, List.mem_cons] at hch
      rcases hch with h | h | h | h | h
      · subst h; exact b64Char_mem _ (by omega)
      · subst h; exact b64Char_mem _ (by omega)
      · subst h; exact b64Char_mem _ (by omega)
      · subst h; exact b64Char_mem _ (by omega)
      · exact encodeChars_mem rest (fun b hbm => hb b (by simp [hbm])) ch h

/-- Characterization of a committed Entry: `uploadHandler` commits an Entry
exactly when every guard passed, and the Entry is built from the file part's
content, the random slug bytes and a single clock reading. -/
theorem uploadHandler_entry_some (hash : List Nat → List Nat)
    (limit lifetimeCfg : Int) (dbOk : Bool) (req : UploadReq) (rnd : List Nat)
    (now : Int) (e : Entry)
    (he : (uploadHandler hash limit lifetimeCfg dbOk req rnd now).entry = some e) :
    ∃ p c, findFilePart req.parts 0 = some (p, c) ∧
      ¬ req.contentLength > limit ∧ ¬ (c : Int) > limit ∧
      ¬ p.fileName.utf8ByteSize > 255 ∧ req.readErr = false ∧
      ¬ ((c + p.content.length + req.boundaryLen : Nat) : Int) > limit ∧
      dbOk = true ∧
      e = ⟨rawURLEncode rnd, p.fileName, rawURLEncode (hash p.content),
           (p.content.length : Int), now,
           if lifetimeCfg > 0 then some (now + lifetimeCfg) else none⟩ := by
  unfold uploadHandler at he
  by_cases h1 : req.contentLength > limit
  · rw [if_pos h1] at he; simp at he
  rw [if_neg h1] at he
  cases hfp : findFilePart req.parts 0 with
  | none => rw [hfp] at he; simp at he
  | some pc =>
    rw [hfp] at he
    obtain ⟨p, c⟩ := pc
    dsimp only at he
    by_cases h2 : (c : Int) > limit
    · rw [if_pos h2] at he; simp at he
    rw [if_neg h2] at he
    by_cases h3 : p.fileName.utf8ByteSize > 255
    · rw [if_pos h3] at he; simp at he
    rw [if_neg h3] at he
    by_cases h4 : req.readErr = true ∨ ((c + p.content.length + req.boundaryLen : Nat) : Int) > limit
    · rw [if_pos (by simpa using h4)] at he; simp at he
    have h4' := not_or.mp h4
    rw [if_neg (by simpa using h4)] at he
    by_cases h5 : dbOk = true
    · rw [if_pos h5] at he
      simp only [Option.some.injEq] at he
      exact ⟨p, c, rfl, h1, h2, h3, Bool.not_eq_true _ ▸ h4'.1, h4'.2, h5, he.symm⟩
    · rw [if_neg h5] at he; simp at he

/-- On the all-guards-pass path, `uploadHandler` produces the full success
outcome: 303, Location `/slug.ext`, that path plus a newline as the body, and
the committed Entry. -/
theorem uploadHandler_success_eq (hash : List Nat → List Nat)
    (limit lifetimeCfg : Int) (dbOk : Bool) (req : UploadReq) (rnd : List Nat)
    (now : Int) (p : Part) (c : Nat)
    (hfp : findFilePart req.parts 0 = some (p, c))
    (h1 : ¬ req.contentLength > limit) (h2 : ¬ (c : Int) > limit)
    (h3 : ¬ p.fileName.utf8ByteSize > 255) (h4 : req.readErr = false)
    (h5 : ¬ ((c + p.content.length + req.boundaryLen : Nat) : Int) > limit)
    (h6 : dbOk = true) :
    uploadHandler hash limit lifetimeCfg dbOk req rnd now =
      ⟨303, some ("/" ++ rawURLEncode rnd ++ filepathExt p.fileName),
       ("/" ++ rawURLEncode rnd ++ filepathExt p.fileName) ++ "\n",
       some ⟨rawURLEncode rnd, p.fileName, rawURLEncode (hash p.content),
             (p.content.length : Int), now,
             if lifetimeCfg > 0 then some (now + lifetimeCfg) else none⟩⟩ := by
  unfold uploadHandler
  rw [if_neg h1, hfp]
  dsimp only
  rw [if_neg h2, if_neg h3,
    if_neg (by push_cast at h5; simp [h4]; omega), if_pos h6]

/-! ## Upload pipeline claims -/

/-- C1: every Entry the upload handler commits has Size equal to the exact
number of bytes copied to the blob store and Sum equal to the padding-free
base64url encoding of the BLAKE3 digest of those same bytes; and an Entry
exists only when the copy completed successfully (no read error and the byte
budget was not exhausted), so the metadata commit is only attempted after a
successful copy. -/
theorem upload_entry_sum_size (hash : List Nat → List Nat)
    (limit lifetimeCfg : Int) (dbOk : Bool) (req : UploadReq) (rnd : List Nat)
    (now : Int) (e : Entry)
    (he : (uploadHandler hash limit lifetimeCfg dbOk req rnd now).entry = some e) :
    ∃ p c, findFilePart req.parts 0 = some (p, c) ∧
      e.size = (p.content.length : Int) ∧
      e.sum = rawURLEncode (hash p.content) ∧
      req.readErr = false ∧
      ¬ ((c + p.content.length + req.boundaryLen : Nat) : Int) > limit := by
  obtain ⟨p, c, hfp, -, -, -, hre, hb, -, hE⟩ :=
    uploadHandler_entry_some hash limit lifetimeCfg dbOk req rnd now e he
  exact ⟨p, c, hfp, by rw [hE], by rw [hE], hre, hb⟩

theorem upload_entry_sum_size_witness :
    ∃ p c, findFilePart ([⟨"file", "a.txt", 2, [7, 8, 9]⟩] : List Part) 0 = some (p, c) ∧
      (⟨"AAAAAAAAAAAA", "a.txt", "Aw", 3, 0, none⟩ : Entry).size = (p.content.length : Int) ∧
      (⟨"AAAAAAAAAAAA", "a.txt", "Aw", 3, 0, none⟩ : Entry).sum =
        rawURLEncode ((fun l => [l.length]) p.content) ∧
      (⟨10, [⟨"file", "a.txt", 2, [7, 8, 9]⟩], 2, false⟩ : UploadReq).readErr = false ∧
      ¬ ((c + p.content.length +
          (⟨10, [⟨"file", "a.txt", 2, [7, 8, 9]⟩], 2, false⟩ : UploadReq).boundaryLen : Nat) : Int) > 100 :=
  upload_entry_sum_size (fun l => [l.length]) 100 0 true
    ⟨10, [⟨"file", "a.txt", 2, [7, 8, 9]⟩], 2, false⟩
    [0, 0, 0, 0, 0, 0, 0, 0, 0] 0
    ⟨"AAAAAAAAAAAA", "a.txt", "Aw", 3, 0, none⟩ (by decide)

/-- C3 counterexample: a request with unknown declared length (-1) whose body
actually contains 24 bytes (2 framing + 20 content + 2 boundary) against a
limit of 10 is rejected with status 500 — not the 413 the claim requires —
when the streaming budget is exhausted during the copy. No Entry is created. -/
theorem upload_overrun_counterexample :
    (uploadHandler (fun l => [l.length]) 10 0 true
        ⟨-1, [⟨"file", "a.txt", 2, List.replicate 20 0⟩], 2, false⟩
        [0, 0, 0, 0, 0, 0, 0, 0, 0] 0).status = 500 ∧
    ¬ (uploadHandler (fun l => [l.length]) 10 0 true
        ⟨-1, [⟨"file", "a.txt", 2, List.replicate 20 0⟩], 2, false⟩
        [0, 0, 0, 0, 0, 0, 0, 0, 0] 0).status = 413 ∧
    (uploadHandler (fun l => [l.length]) 10 0 true
        ⟨-1, [⟨"file", "a.txt", 2, List.replicate 20 0⟩], 2, false⟩
        [0, 0, 0, 0, 0, 0, 0, 0, 0] 0).entry = none := by decide

/-- C3 (amended): a request whose declared content length exceeds the limit is
rejected up front with 413 and no Entry; a body that actually exceeds the
limit while the file part is being located or copied makes the request fail
with 400 or 500 (the MaxBytesReader error surfaces through the multipart
reader or the copy, not as 413) and no Entry is created. -/
theorem upload_limit_enforcement (hash : List Nat → List Nat)
    (limit lifetimeCfg : Int) (dbOk : Bool) (req : UploadReq) (rnd : List Nat)
    (now : Int) :
    (req.contentLength > limit →
      uploadHandler hash limit lifetimeCfg dbOk req rnd now = ⟨413, none, "", none⟩) ∧
    (∀ p c, ¬ req.contentLength > limit →
      findFilePart req.parts 0 = some (p, c) →
      ((c + p.content.length + req.boundaryLen : Nat) : Int) > limit →
      (uploadHandler hash limit lifetimeCfg dbOk req rnd now).entry = none ∧
      ((uploadHandler hash limit lifetimeCfg dbOk req rnd now).status = 400 ∨
       (uploadHandler hash limit lifetimeCfg dbOk req rnd now).status = 500)) := by
  constructor
  · intro h
    unfold uploadHandler
    rw [if_pos h]
  · intro p c h1 hfp hover
    unfold uploadHandler
    rw [if_neg h1, hfp]
    dsimp only
    by_cases h2 : (c : Int) > limit
    · rw [if_pos h2]; exact ⟨rfl, Or.inl rfl⟩
    · rw [if_neg h2]
      by_cases h3 : p.fileName.utf8ByteSize > 255
      · rw [if_pos h3]; exact ⟨rfl, Or.inl rfl⟩
      · rw [if_neg h3, if_pos (Or.inr hover)]
        exact ⟨rfl, Or.inr rfl⟩

theorem upload_limit_enforcement_witness :
    uploadHandler (fun l => [l.length]) 5 0 true ⟨10, [], 0, false⟩ [] 0 =
      ⟨413, none, "", none⟩ :=
  (upload_limit_enforcement (fun l => [l.length]) 5 0 true
    ⟨10, [], 0, false⟩ [] 0).1 (by decide)

/-- C7: a fully successful upload responds 303 with a Location of "/" ++ slug
++ ext, where ext is the extension of the original file name, and the same
path (followed by a newline) is written as the response body. -/
theorem upload_redirect_response (hash : List Nat → List Nat)
    (limit lifetimeCfg : Int) (dbOk : Bool) (req : UploadReq) (rnd : List Nat)
    (now : Int) (e : Entry)
    (he : (uploadHandler hash limit lifetimeCfg dbOk req rnd now).entry = some e) :
    (uploadHandler hash limit lifetimeCfg dbOk req rnd now).status = 303 ∧
    (uploadHandler hash limit lifetimeCfg dbOk req rnd now).location =
      some ("/" ++ e.slug ++ filepathExt e.name) ∧
    (uploadHandler hash limit lifetimeCfg dbOk req rnd now).body =
      ("/" ++ e.slug ++ filepathExt e.name) ++ "\n" := by
  obtain ⟨p, c, hfp, h1, h2, h3, h4, h5, h6, hE⟩ :=
    uploadHandler_entry_some hash limit lifetimeCfg dbOk req rnd now e he
  have hs := uploadHandler_success_eq hash limit lifetimeCfg dbOk req rnd now
    p c hfp h1 h2 h3 h4 h5 h6
  rw [hs, hE]
  exact ⟨rfl, rfl, rfl⟩

theorem upload_redirect_response_witness :
    (uploadHandler (fun l => [l.length]) 100 0 true
        ⟨10, [⟨"file", "b.txt", 2, [7, 8, 9]⟩], 2, false⟩
        [0, 0, 0, 0, 0, 0, 0, 0, 0] 0).status = 303 ∧
    (uploadHandler (fun l => [l.length]) 100 0 true
        ⟨10, [⟨"file", "b.txt", 2, [7, 8, 9]⟩], 2, false⟩
        [0, 0, 0, 0, 0, 0, 0, 0, 0] 0).location =
      some ("/" ++ (⟨"AAAAAAAAAAAA", "b.txt", "Aw", 3, 0, none⟩ : Entry).slug ++
        filepathExt (⟨"AAAAAAAAAAAA", "b.txt", "Aw", 3, 0, none⟩ : Entry).name) ∧
    (uploadHandler (fun l => [l.length]) 100 0 true
        ⟨10, [⟨"file", "b.txt", 2, [7, 8, 9]⟩], 2, false⟩
        [0, 0, 0, 0, 0, 0, 0, 0, 0] 0).body =
      ("/" ++ (⟨"AAAAAAAAAAAA", "b.txt", "Aw", 3, 0, none⟩ : Entry).slug ++
        filepathExt (⟨"AAAAAAAAAAAA", "b.txt", "Aw", 3, 0, none⟩ : Entry).name) ++ "\n" :=
  upload_redirect_response (fun l => [l.length]) 100 0 true
    ⟨10, [⟨"file", "b.txt", 2, [7, 8, 9]⟩], 2, false⟩
    [0, 0, 0, 0, 0, 0, 0, 0, 0] 0
    ⟨"AAAAAAAAAAAA", "b.txt", "Aw", 3, 0, none⟩ (by decide)

/-- C8: the slug of any committed Entry is the padding-free base64url encoding
of the 9 random bytes — independent of the request's content and file name,
which the slug expression never consults — so it is exactly 12 characters
long and every character is in the URL-safe base64 alphabet. -/
theorem upload_slug_shape (hash : List Nat → List Nat)
    (limit lifetimeCfg : Int) (dbOk : Bool) (req : UploadReq) (rnd : List Nat)
    (now : Int) (e : Entry)
    (h9 : rnd.length = 9) (hb : ∀ b ∈ rnd, b < 256)
    (he : (uploadHandler hash limit lifetimeCfg dbOk req rnd now).entry = some e) :
    e.slug = rawURLEncode rnd ∧ e.slug.length = 12 ∧
    ∀ ch ∈ e.slug.data, ch ∈ base64Chars := by
  obtain ⟨p, c, -, -, -, -, -, -, -, hE⟩ :=
    uploadHandler_entry_some hash limit lifetimeCfg dbOk req rnd now e he
  have hslug : e.slug = rawURLEncode rnd := by rw [hE]
  refine ⟨hslug, ?_, ?_⟩
  · rw [hslug]
    show (encodeChars rnd).length = 12
    rw [encodeChars_length, h9]
  · rw [hslug]
    exact encodeChars_mem rnd hb

theorem upload_slug_shape_witness :
    (⟨"AAAAAAAAAAAA", "c.txt", "Aw", 3, 0, none⟩ : Entry).slug =
      rawURLEncode [0, 0, 0, 0, 0, 0, 0, 0, 0] ∧
    (⟨"AAAAAAAAAAAA", "c.txt", "Aw", 3, 0, none⟩ : Entry).slug.length = 12 ∧
    ∀ ch ∈ (⟨"AAAAAAAAAAAA", "c.txt", "Aw", 3, 0, none⟩ : Entry).slug.data,
      ch ∈ base64Chars :=
  upload_slug_shape (fun l => [l.length]) 100 0 true
    ⟨10, [⟨"file", "c.txt", 2, [7, 8, 9]⟩], 2, false⟩
    [0, 0, 0, 0, 0, 0, 0, 0, 0] 0
    ⟨"AAAAAAAAAAAA", "c.txt", "Aw", 3, 0, none⟩
    (by decide) (by decide) (by decide)

/-- C9: an Entry committed with a positive configured lifetime has its expiry
instant equal to its Timestamp plus that lifetime exactly (both come from the
single clock reading taken after the copy), and a zero configured lifetime
yields no expiry (`nil` Lifetime). -/
theorem upload_entry_expiry (hash : List Nat → List Nat)
    (limit lifetimeCfg : Int) (dbOk : Bool) (req : UploadReq) (rnd : List Nat)
    (now : Int) (e : Entry)
    (he : (uploadHandler hash limit lifetimeCfg dbOk req rnd now).entry = some e) :
    (0 < lifetimeCfg → e.lifetime = some (e.timestamp + lifetimeCfg)) ∧
    (lifetimeCfg = 0 → e.lifetime = none) := by
  obtain ⟨p, c, -, -, -, -, -, -, -, hE⟩ :=
    uploadHandler_entry_some hash limit lifetimeCfg dbOk req rnd now e he
  constructor
  · intro hpos
    rw [hE]
    show (if lifetimeCfg > 0 then some (now + lifetimeCfg) else none) =
      some (now + lifetimeCfg)
    rw [if_pos hpos]
  · intro h0
    rw [hE]
    show (if lifetimeCfg > 0 then some (now + lifetimeCfg) else none) = none
    rw [if_neg (by omega)]

theorem upload_entry_expiry_witness :
    (0 < (50 : Int) →
      (⟨"AAAAAAAAAAAA", "d.txt", "Aw", 3, 7, some 57⟩ : Entry).lifetime =
        some ((⟨"AAAAAAAAAAAA", "d.txt", "Aw", 3, 7, some 57⟩ : Entry).timestamp + 50)) ∧
    ((50 : Int) = 0 →
      (⟨"AAAAAAAAAAAA", "d.txt", "Aw", 3, 7, some 57⟩ : Entry).lifetime = none) :=
  upload_entry_expiry (fun l => [l.length]) 100 50 true
    ⟨10, [⟨"file", "d.txt", 2, [7, 8, 9]⟩], 2, false⟩
    [0, 0, 0, 0, 0, 0, 0, 0, 0] 7
    ⟨"AAAAAAAAAAAA", "d.txt", "Aw", 3, 7, some 57⟩ (by decide)

/-! ## Serving pipeline helpers -/

/-- The type `detectContentType` computes from the sniffed byte window: the
signature classification, with the extension table preferred when the
signature is the generic octet-stream type and the table has an entry. -/
def sniffedType (dS : List Nat → String) (dO : List Nat → Bool)
    (extT : String → String) (name : String) (bytes : List Nat) : String :=
  if dO bytes = true then
    (if extT (filepathExt name) ≠ "" then extT (filepathExt name) else dS bytes)
  else dS bytes

/-- On a stream whose seek succeeds, `detectContentType` returns the sniffed
(or extension-fallback) type and the stream rewound to position 0. -/
theorem detect_eq_of_seekOk (dS : List Nat → String) (dO : List Nat → Bool)
    (extT : String → String) (name : String) (s : Stream)
    (hsk : s.seekOk = true) :
    detectContentType dS dO extT name s =
      .ok (sniffedType dS dO extT name ((s.data.drop s.pos).take 3072),
        ⟨s.data, 0, true⟩) := by
  unfold detectContentType readFull sniffedType
  dsimp only
  rw [hsk]
  by_cases hoct : dO ((s.data.drop s.pos).take 3072) = true
  · by_cases hext : extT (filepathExt name) ≠ ""
    · simp [hoct, hext]
    · simp [hoct, hext]
  · simp [hoct]

/-- `serveEntry` with an open blob and a successful sniff serves the entry
with the HTML-downgraded content type and the quoted digest as Etag. -/
theorem serveEntry_eq (dS : List Nat → String) (dO : List Nat → Bool)
    (extT : String → String) (fsOpen : String → Option Stream) (e : Entry)
    (cache : String) (f : Stream) (ct : String) (f2 : Stream)
    (hf : fsOpen e.slug = some f)
    (hdet : detectContentType dS dO extT e.name f = .ok (ct, f2)) :
    serveEntry dS dO extT fsOpen e cache =
      .served cache (rewriteCType ct) ("\"" ++ e.sum ++ "\"") e.lifetime f2 := by
  unfold serveEntry
  rw [hf]
  dsimp only
  rw [hdet]

/-- `serveSlug` on a single-segment path whose slug resolves reduces to the
lifetime dispatch of the source. -/
theorem serveSlug_entry (dS : List Nat → String) (dO : List Nat → Bool)
    (extT : String → String) (db : String → Option Entry)
    (fsOpen : String → Option Stream) (reqPath : String) (now : Int)
    (name0 : String) (e : Entry)
    (hp : pathSplit reqPath = ("/", name0))
    (hdb : db (trimAtDot name0) = some e) :
    serveSlug dS dO extT db fsOpen reqPath now =
      match e.lifetime with
      | some l =>
          if l < now then .notFound
          else
            serveEntry dS dO extT fsOpen e
              ("public, must-revalidate, max-age=" ++ toString ((l - now) / 1000000000))
      | none => serveEntry dS dO extT fsOpen e "max-age=31536000" := by
  unfold serveSlug
  rw [hp]
  dsimp only
  rw [if_neg (by simp), hdb]

/-- `serveSlug` on a single-segment path whose slug is absent from the
database returns the not-found result. -/
theorem serveSlug_absent (dS : List Nat → String) (dO : List Nat → Bool)
    (extT : String → String) (db : String → Option Entry)
    (fsOpen : String → Option Stream) (reqPath : String) (now : Int)
    (name0 : String)
    (hp : pathSplit reqPath = ("/", name0))
    (hdb : db (trimAtDot name0) = none) :
    serveSlug dS dO extT db fsOpen reqPath now = .notFound := by
  unfold serveSlug
  rw [hp]
  dsimp only
  rw [if_neg (by simp), hdb]

/-! ## Serving pipeline claims -/

/-- C2 counterexample: an entry whose lifetime is the instant 5 is still
served by a lookup performed exactly at time 5 (the source gate is
`e.Lifetime.Before(now)`, a strict comparison), while the claim requires any
time greater than or equal to the lifetime to be treated as not-found. -/
theorem lookup_at_expiry_counterexample :
    serveSlug (fun _ => "application/pdf") (fun _ => false) (fun _ => "")
      (fun n => if n = "abc" then some ⟨"abc", "f.txt", "SUM", 3, 0, some 5⟩ else none)
      (fun sl => if sl = "abc" then some ⟨[1, 2, 3], 0, true⟩ else none)
      "/abc" 5 =
    .served "public, must-revalidate, max-age=0" "application/pdf" "\"SUM\""
      (some 5) ⟨[1, 2, 3], 0, true⟩ := by decide

/-- C2 (amended): for an entry with finite lifetime L, a lookup at any time
less than or equal to L serves the entry, and a lookup at any time strictly
after L is treated as not-found — the same `notFound` result produced for a
slug that never existed, with no distinguishing detail. -/
theorem lookup_expiry_boundary (dS : List Nat → String) (dO : List Nat → Bool)
    (extT : String → String) (db : String → Option Entry)
    (fsOpen : String → Option Stream) (reqPath : String) (now : Int)
    (name0 : String) (e : Entry) (L : Int) (f : Stream)
    (hp : pathSplit reqPath = ("/", name0))
    (hdb : db (trimAtDot name0) = some e)
    (hl : e.lifetime = some L)
    (hf : fsOpen e.slug = some f) (hsk : f.seekOk = true) :
    (now ≤ L → ∃ ct, serveSlug dS dO extT db fsOpen reqPath now =
      .served ("public, must-revalidate, max-age=" ++ toString ((L - now) / 1000000000))
        ct ("\"" ++ e.sum ++ "\"") (some L) ⟨f.data, 0, true⟩) ∧
    (L < now → serveSlug dS dO extT db fsOpen reqPath now = .notFound) ∧
    (∀ path2 n2, pathSplit path2 = ("/", n2) → db (trimAtDot n2) = none →
      serveSlug dS dO extT db fsOpen path2 now = .notFound) := by
  have hmain := serveSlug_entry dS dO extT db fsOpen reqPath now name0 e hp hdb
  rw [hl] at hmain
  refine ⟨?_, ?_, ?_⟩
  · intro hle
    rw [hmain]
    dsimp only
    rw [if_neg (not_lt.mpr hle)]
    refine ⟨rewriteCType (sniffedType dS dO extT e.name ((f.data.drop f.pos).take 3072)), ?_⟩
    rw [serveEntry_eq dS dO extT fsOpen e _ f _ _ hf
      (detect_eq_of_seekOk dS dO extT e.name f hsk), hl]
  · intro hlt
    rw [hmain]
    dsimp only
    rw [if_pos hlt]
  · intro path2 n2 hp2 hdb2
    exact serveSlug_absent dS dO extT db fsOpen path2 now n2 hp2 hdb2

theorem lookup_expiry_boundary_witness :
    ((3 : Int) ≤ 5 → ∃ ct,
      serveSlug (fun _ => "text/plain") (fun _ => false) (fun _ => "")
        (fun n => if n = "xyz" then some ⟨"xyz", "g.txt", "S2", 3, 0, some 5⟩ else none)
        (fun sl => if sl = "xyz" then some ⟨[4, 5, 6], 0, true⟩ else none)
        "/xyz" 3 =
      .served ("public, must-revalidate, max-age=" ++ toString (((5 : Int) - 3) / 1000000000))
        ct ("\"" ++ (⟨"xyz", "g.txt", "S2", 3, 0, some 5⟩ : Entry).sum ++ "\"")
        (some 5) ⟨[4, 5, 6], 0, true⟩) ∧
    ((5 : Int) < 3 →
      serveSlug (fun _ => "text/plain") (fun _ => false) (fun _ => "")
        (fun n => if n = "xyz" then some ⟨"xyz", "g.txt", "S2", 3, 0, some 5⟩ else none)
        (fun sl => if sl = "xyz" then some ⟨[4, 5, 6], 0, true⟩ else none)
        "/xyz" 3 = .notFound) ∧
    (∀ path2 n2, pathSplit path2 = ("/", n2) →
      (fun n => if n = "xyz" then some (⟨"xyz", "g.txt", "S2", 3, 0, some 5⟩ : Entry) else none)
        (trimAtDot n2) = none →
      serveSlug (fun _ => "text/plain") (fun _ => false) (fun _ => "")
        (fun n => if n = "xyz" then some ⟨"xyz", "g.txt", "S2", 3, 0, some 5⟩ else none)
        (fun sl => if sl = "xyz" then some ⟨[4, 5, 6], 0, true⟩ else none)
        path2 3 = .notFound) :=
  lookup_expiry_boundary (fun _ => "text/plain") (fun _ => false) (fun _ => "")
    (fun n => if n = "xyz" then some ⟨"xyz", "g.txt", "S2", 3, 0, some 5⟩ else none)
    (fun sl => if sl = "xyz" then some ⟨[4, 5, 6], 0, true⟩ else none)
    "/xyz" 3 "xyz" ⟨"xyz", "g.txt", "S2", 3, 0, some 5⟩ 5 ⟨[4, 5, 6], 0, true⟩
    (by decide) (by decide) (by decide) (by decide) (by decide)

/-- C6: a served entry with no lifetime gets the long-lived one-year cache
directive `max-age=31536000`; one with lifetime L (not yet expired) gets the
must-revalidate directive whose max-age is the whole number of seconds
remaining until expiry — never negative — together with an Expires header at
the exact expiry instant L. -/
theorem cache_headers (dS : List Nat → String) (dO : List Nat → Bool)
    (extT : String → String) (db : String → Option Entry)
    (fsOpen : String → Option Stream) (reqPath : String) (now : Int)
    (name0 : String) (e : Entry) (f : Stream)
    (hp : pathSplit reqPath = ("/", name0))
    (hdb : db (trimAtDot name0) = some e)
    (hf : fsOpen e.slug = some f) (hsk : f.seekOk = true) :
    (e.lifetime = none → ∃ ct, serveSlug dS dO extT db fsOpen reqPath now =
      .served "max-age=31536000" ct ("\"" ++ e.sum ++ "\"") none ⟨f.data, 0, true⟩) ∧
    (∀ L, e.lifetime = some L → ¬ L < now →
      (∃ ct, serveSlug dS dO extT db fsOpen reqPath now =
        .served ("public, must-revalidate, max-age=" ++ toString ((L - now) / 1000000000))
          ct ("\"" ++ e.sum ++ "\"") (some L) ⟨f.data, 0, true⟩) ∧
      0 ≤ (L - now) / 1000000000) := by
  have hmain := serveSlug_entry dS dO extT db fsOpen reqPath now name0 e hp hdb
  constructor
  · intro hnone
    rw [hnone] at hmain
    rw [hmain]
    refine ⟨rewriteCType (sniffedType dS dO extT e.name ((f.data.drop f.pos).take 3072)), ?_⟩
    rw [serveEntry_eq dS dO extT fsOpen e _ f _ _ hf
      (detect_eq_of_seekOk dS dO extT e.name f hsk), hnone]
  · intro L hL hnlt
    rw [hL] at hmain
    refine ⟨⟨rewriteCType (sniffedType dS dO extT e.name ((f.data.drop f.pos).take 3072)), ?_⟩,
      Int.ediv_nonneg (by omega) (by norm_num)⟩
    rw [hmain]
    dsimp only
    rw [if_neg hnlt]
    rw [serveEntry_eq dS dO extT fsOpen e _ f _ _ hf
      (detect_eq_of_seekOk dS dO extT e.name f hsk), hL]

theorem cache_headers_witness :
    ((⟨"pqr", "h.txt", "S3", 3, 0, none⟩ : Entry).lifetime = none → ∃ ct,
      serveSlug (fun _ => "text/plain") (fun _ => false) (fun _ => "")
        (fun n => if n = "pqr" then some ⟨"pqr", "h.txt", "S3", 3, 0, none⟩ else none)
        (fun sl => if sl = "pqr" then some ⟨[9], 0, true⟩ else none)
        "/pqr" 3 =
      .served "max-age=31536000" ct
        ("\"" ++ (⟨"pqr", "h.txt", "S3", 3, 0, none⟩ : Entry).sum ++ "\"")
        none ⟨[9], 0, true⟩) ∧
    (∀ L, (⟨"pqr", "h.txt", "S3", 3, 0, none⟩ : Entry).lifetime = some L → ¬ L < 3 →
      (∃ ct, serveSlug (fun _ => "text/plain") (fun _ => false) (fun _ => "")
        (fun n => if n = "pqr" then some ⟨"pqr", "h.txt", "S3", 3, 0, none⟩ else none)
        (fun sl => if sl = "pqr" then some ⟨[9], 0, true⟩ else none)
        "/pqr" 3 =
        .served ("public, must-revalidate, max-age=" ++ toString ((L - 3) / 1000000000))
          ct ("\"" ++ (⟨"pqr", "h.txt", "S3", 3, 0, none⟩ : Entry).sum ++ "\"")
          (some L) ⟨[9], 0, true⟩) ∧
      0 ≤ (L - 3) / 1000000000) :=
  cache_headers (fun _ => "text/plain") (fun _ => false) (fun _ => "")
    (fun n => if n = "pqr" then some ⟨"pqr", "h.txt", "S3", 3, 0, none⟩ else none)
    (fun sl => if sl = "pqr" then some ⟨[9], 0, true⟩ else none)
    "/pqr" 3 "pqr" ⟨"pqr", "h.txt", "S3", 3, 0, none⟩ ⟨[9], 0, true⟩
    (by decide) (by decide) (by decide) (by decide)

/-- C4: a served entry's Content-Type is the detected type run through the
HTML downgrade: a detected type beginning with "text/html" is served as
"text/plain" followed by the unchanged remainder (so a charset parameter is
preserved), and a type not beginning with "text/html" is served unchanged. -/
theorem served_html_downgrade (dS : List Nat → String) (dO : List Nat → Bool)
    (extT : String → String) (db : String → Option Entry)
    (fsOpen : String → Option Stream) (reqPath : String) (now : Int)
    (name0 : String) (e : Entry) (f : Stream) (ct0 : String) (f2 : Stream)
    (hp : pathSplit reqPath = ("/", name0))
    (hdb : db (trimAtDot name0) = some e)
    (hexp : ∀ L, e.lifetime = some L → ¬ L < now)
    (hf : fsOpen e.slug = some f)
    (hdet : detectContentType dS dO extT e.name f = .ok (ct0, f2)) :
    (∃ cache, serveSlug dS dO extT db fsOpen reqPath now =
      .served cache (rewriteCType ct0) ("\"" ++ e.sum ++ "\"") e.lifetime f2) ∧
    (∀ rest : String, rewriteCType ("text/html" ++ rest) = "text/plain" ++ rest) ∧
    (∀ t : String, "text/html".data.isPrefixOf t.data = false →
      rewriteCType t = t) := by
  have hmain := serveSlug_entry dS dO extT db fsOpen reqPath now name0 e hp hdb
  refine ⟨?_, ?_, ?_⟩
  · cases hL : e.lifetime with
    | none =>
        rw [hL] at hmain
        refine ⟨"max-age=31536000", ?_⟩
        rw [hmain, serveEntry_eq dS dO extT fsOpen e _ f ct0 f2 hf hdet, hL]
    | some L =>
        rw [hL] at hmain
        refine ⟨"public, must-revalidate, max-age=" ++ toString ((L - now) / 1000000000), ?_⟩
        rw [hmain]
        dsimp only
        rw [if_neg (hexp L hL), serveEntry_eq dS dO extT fsOpen e _ f ct0 f2 hf hdet, hL]
  · intro rest
    unfold rewriteCType
    have hpre : "text/html".data.isPrefixOf ("text/html" ++ rest).data = true := by
      rw [String.data_append, List.isPrefixOf_iff_prefix]
      exact List.prefix_append _ _
    rw [if_pos hpre, String.data_append]
    show String.mk ("text/plain".data ++
      ("text/html".data ++ rest.data).drop "text/html".data.length) = "text/plain" ++ rest
    rw [List.drop_left]
    rfl
  · intro t h
    unfold rewriteCType
    rw [if_neg (by simp [h])]

theorem served_html_downgrade_witness :
    (∃ cache, serveSlug (fun _ => "text/html; charset=utf-8") (fun _ => false) (fun _ => "")
      (fun n => if n = "abc" then some ⟨"abc", "f.html", "S4", 3, 0, none⟩ else none)
      (fun sl => if sl = "abc" then some ⟨[1, 2, 3], 0, true⟩ else none)
      "/abc" 0 =
      .served cache (rewriteCType "text/html; charset=utf-8")
        ("\"" ++ (⟨"abc", "f.html", "S4", 3, 0, none⟩ : Entry).sum ++ "\"")
        (⟨"abc", "f.html", "S4", 3, 0, none⟩ : Entry).lifetime ⟨[1, 2, 3], 0, true⟩) ∧
    (∀ rest : String, rewriteCType ("text/html" ++ rest) = "text/plain" ++ rest) ∧
    (∀ t : String, "text/html".data.isPrefixOf t.data = false →
      rewriteCType t = t) :=
  served_html_downgrade (fun _ => "text/html; charset=utf-8") (fun _ => false) (fun _ => "")
    (fun n => if n = "abc" then some ⟨"abc", "f.html", "S4", 3, 0, none⟩ else none)
    (fun sl => if sl = "abc" then some ⟨[1, 2, 3], 0, true⟩ else none)
    "/abc" 0 "abc" ⟨"abc", "f.html", "S4", 3, 0, none⟩ ⟨[1, 2, 3], 0, true⟩
    "text/html; charset=utf-8" ⟨[1, 2, 3], 0, true⟩
    (by decide) (by decide) (by simp) (by decide) rfl

/-- C5: with a fresh (position-0) seekable stream of N > 0 bytes, detection
classifies exactly the first min(N, 3072) bytes, returns a stream whose read
position is restored to the start, and when the signature classifies as the
generic octet-stream type it prefers the extension table's type for the
filename's extension whenever that table has one. -/
theorem detect_bounded (dS : List Nat → String) (dO : List Nat → Bool)
    (extT : String → String) (name : String) (s : Stream)
    (hpos : s.pos = 0) (hsk : s.seekOk = true) (hN : 0 < s.data.length) :
    detectContentType dS dO extT name s =
      .ok (sniffedType dS dO extT name (s.data.take 3072), ⟨s.data, 0, true⟩) ∧
    (s.data.take 3072).length = min s.data.length 3072 ∧
    (dO (s.data.take 3072) = true → extT (filepathExt name) ≠ "" →
      sniffedType dS dO extT name (s.data.take 3072) = extT (filepathExt name)) := by
  refine ⟨?_, by rw [List.length_take]; omega, ?_⟩
  · rw [detect_eq_of_seekOk dS dO extT name s hsk, hpos, List.drop_zero]
  · intro hoct hext
    unfold sniffedType
    rw [if_pos hoct, if_pos hext]

theorem detect_bounded_witness :
    detectContentType (fun _ => "application/octet-stream") (fun _ => true)
      (fun ext => if ext = ".bin" then "application/x-msdownload" else "")
      "x.bin" ⟨[1, 2, 3], 0, true⟩ =
      .ok (sniffedType (fun _ => "application/octet-stream") (fun _ => true)
        (fun ext => if ext = ".bin" then "application/x-msdownload" else "")
        "x.bin" (([1, 2, 3] : List Nat).take 3072), ⟨[1, 2, 3], 0, true⟩) ∧
    (([1, 2, 3] : List Nat).take 3072).length = min ([1, 2, 3] : List Nat).length 3072 ∧
    ((fun (_ : List Nat) => true) (([1, 2, 3] : List Nat).take 3072) = true →
      (fun ext => if ext = ".bin" then "application/x-msdownload" else "") (filepathExt "x.bin") ≠ "" →
      sniffedType (fun _ => "application/octet-stream") (fun _ => true)
        (fun ext => if ext = ".bin" then "application/x-msdownload" else "")
        "x.bin" (([1, 2, 3] : List Nat).take 3072) =
        (fun ext => if ext = ".bin" then "application/x-msdownload" else "") (filepathExt "x.bin")) :=
  detect_bounded (fun _ => "application/octet-stream") (fun _ => true)
    (fun ext => if ext = ".bin" then "application/x-msdownload" else "")
    "x.bin" ⟨[1, 2, 3], 0, true⟩ (by decide) (by decide) (by decide)

/-- C10: detection only fails when the seek back to the start fails; on a
seekable stream it succeeds, never returns an empty type (given that the
mimetype library's `Detect` never yields an empty string), and when the
signature is the generic octet-stream type and the extension table has no
entry for the filename's extension, it returns the sniffed type itself. -/
theorem detect_error_only_seek (dS : List Nat → String) (dO : List Nat → Bool)
    (extT : String → String) (name : String) (s : Stream)
    (hne : ∀ bs, dS bs ≠ "") :
    (s.seekOk = false → detectContentType dS dO extT name s = .error .seekFailure) ∧
    (s.seekOk = true →
      detectContentType dS dO extT name s =
        .ok (sniffedType dS dO extT name ((s.data.drop s.pos).take 3072),
          ⟨s.data, 0, true⟩) ∧
      sniffedType dS dO extT name ((s.data.drop s.pos).take 3072) ≠ "" ∧
      (dO ((s.data.drop s.pos).take 3072) = true → extT (filepathExt name) = "" →
        sniffedType dS dO extT name ((s.data.drop s.pos).take 3072) =
          dS ((s.data.drop s.pos).take 3072))) := by
  constructor
  · intro hbad
    unfold detectContentType readFull
    dsimp only
    rw [hbad]
    simp
  · intro hsk
    refine ⟨detect_eq_of_seekOk dS dO extT name s hsk, ?_, ?_⟩
    · unfold sniffedType
      by_cases hoct : dO ((s.data.drop s.pos).take 3072) = true
      · by_cases hext : extT (filepathExt name) ≠ ""
        · rw [if_pos hoct, if_pos hext]; exact hext
        · rw [if_pos hoct, if_neg hext]; exact hne _
      · rw [if_neg hoct]; exact hne _
    · intro hoct hext0
      unfold sniffedType
      rw [if_pos hoct, if_neg (by simp [hext0])]

theorem detect_error_only_seek_witness :
    ((⟨[7], 0, false⟩ : Stream).seekOk = false →
      detectContentType (fun _ => "application/octet-stream") (fun _ => true)
        (fun _ => "") "noext" ⟨[7], 0, false⟩ = .error .seekFailure) ∧
    ((⟨[7], 0, false⟩ : Stream).seekOk = true →
      detectContentType (fun _ => "application/octet-stream") (fun _ => true)
        (fun _ => "") "noext" ⟨[7], 0, false⟩ =
        .ok (sniffedType (fun _ => "application/octet-stream") (fun _ => true)
          (fun _ => "") "noext"
          ((((⟨[7], 0, false⟩ : Stream).data.drop (⟨[7], 0, false⟩ : Stream).pos).take 3072)),
          ⟨(⟨[7], 0, false⟩ : Stream).data, 0, true⟩) ∧
      sniffedType (fun _ => "application/octet-stream") (fun _ => true)
        (fun _ => "") "noext"
        ((((⟨[7], 0, false⟩ : Stream).data.drop (⟨[7], 0, false⟩ : Stream).pos).take 3072)) ≠ "" ∧
      ((fun (_ : List Nat) => true)
          ((((⟨[7], 0, false⟩ : Stream).data.drop (⟨[7], 0, false⟩ : Stream).pos).take 3072)) = true →
        (fun (_ : String) => "") (filepathExt "noext") = "" →
        sniffedType (fun _ => "application/octet-stream") (fun _ => true)
          (fun _ => "") "noext"
          ((((⟨[7], 0, false⟩ : Stream).data.drop (⟨[7], 0, false⟩ : Stream).pos).take 3072)) =
          (fun (_ : List Nat) => "application/octet-stream")
            ((((⟨[7], 0, false⟩ : Stream).data.drop (⟨[7], 0, false⟩ : Stream).pos).take 3072)))) :=
  detect_error_only_seek (fun _ => "application/octet-stream") (fun _ => true)
    (fun _ => "") "noext" ⟨[7], 0, false⟩
    (fun bs => by show "application/octet-stream" ≠ ""; decide)

end Kipp
